import Mathlib

/-!
Verification of TeslaPiCAN (`main.py`) against its specification.

The Python source is shallowly embedded: Python dicts over string keys are
association lists with Python-dict insertion semantics (updating an existing
key keeps its position, a fresh key is appended), Python exceptions become
`Option`/`Except` results, and the two async loops are modelled by the traces
of externally visible events a single loop iteration produces.
-/

namespace TPC

/-! ### Python dict model -/

/-- Keys of a dict, in insertion order. -/
def keys (d : List (String × Int)) : List String :=
  d.map Prod.fst

/-- Python `d[k] = v`: update the value in place when `k` is present, append
`(k, v)` otherwise. -/
def dictInsert (d : List (String × Int)) (k : String) (v : Int) :
    List (String × Int) :=
  if k ∈ keys d then
    d.map (fun p => if p.1 = k then (k, v) else p)
  else
    d ++ [(k, v)]

/-- Python `d[k]` / `k in d`: value of the first (hence only) entry for `k`. -/
def dictLookup (d : List (String × Int)) (k : String) : Option Int :=
  (d.find? (fun p => p.1 = k)).map Prod.snd

/-! ### Signal database descriptors (cantools message/signal objects) -/

/-- A cantools signal descriptor, restricted to the fields `main.py` reads:
`name`, `is_multiplexer` and `multiplexer_ids` (Python `None` becomes
`Option.none`). -/
structure Signal where
  name : String
  is_multiplexer : Bool
  multiplexer_ids : Option (List Int)
  deriving DecidableEq, Repr

/-- A cantools message descriptor: its ordered list of signals. -/
structure Message where
  signals : List Signal
  deriving DecidableEq, Repr

/-- Body of the `for signal in message.signals` loop of `create_signal_dict`:
state is the signals dict together with the running `multiplexer_value`.
`signal.multiplexer_ids[0]` on an empty sequence is Python's `IndexError`,
modelled as `none`. -/
def csdStep (specified_signals : List (String × Int))
    (st : List (String × Int) × Option Int) (signal : Signal) :
    Option (List (String × Int) × Option Int) :=
  match dictLookup specified_signals signal.name with
  | none => some st
  | some v =>
    let signals := dictInsert st.1 signal.name v
    match signal.multiplexer_ids with
    | none => some (signals, st.2)
    | some ids =>
      match ids with
      | [] => none
      | m :: _ => some (signals, some m)

/-- Embedding of `create_signal_dict(message, specified_signals,
default_value=0)` from `main.py`; `none` is an uncaught Python exception. -/
def create_signal_dict (message : Message)
    (specified_signals : List (String × Int)) (default_value : Int) :
    Option (List (String × Int)) := do
  let signals :=
    message.signals.foldl (fun d s => dictInsert d s.name default_value) []
  let multiplexer_signal := message.signals.find? (fun s => s.is_multiplexer)
  let (signals, multiplexer_value) ←
    message.signals.foldlM (csdStep specified_signals) (signals, none)
  match multiplexer_signal, multiplexer_value with
  | some ms, some mv => pure (dictInsert signals ms.name mv)
  | _, _ => pure signals

/-! Reference functions characterising the loop of `create_signal_dict`. -/

/-- The signals dict produced by the loop when no exception occurs. -/
def dFinal (specified_signals : List (String × Int)) (sigs : List Signal)
    (d0 : List (String × Int)) : List (String × Int) :=
  sigs.foldl
    (fun d s =>
      match dictLookup specified_signals s.name with
      | some v => dictInsert d s.name v
      | none => d)
    d0

/-- The `multiplexer_value` produced by the loop when no exception occurs. -/
def mvFinal (specified_signals : List (String × Int)) (sigs : List Signal)
    (mv0 : Option Int) : Option Int :=
  sigs.foldl
    (fun mv s =>
      if (dictLookup specified_signals s.name).isSome then
        match s.multiplexer_ids with
        | some (m :: _) => some m
        | some [] => mv
        | none => mv
      else mv)
    mv0

/-- The `multiplexer_ids` sequences of the specified-and-declared signals, in
declaration order. -/
def muxCandidates (specified_signals : List (String × Int))
    (sigs : List Signal) : List (List Int) :=
  sigs.filterMap
    (fun s =>
      if (dictLookup specified_signals s.name).isSome then s.multiplexer_ids
      else none)

/-- The all-defaults dict: the comprehension on the first line of
`create_signal_dict`. -/
def initDict (sigs : List Signal) (default_value : Int) :
    List (String × Int) :=
  sigs.foldl (fun d s => dictInsert d s.name default_value) []

/-! ### CANBusSubscriber

Callbacks are opaque identities (`Nat`). Python's `in` / `list.remove` use
`==`, which for distinct callback objects is identity comparison; `remove`
deletes the first occurrence. A callback's visible effect on the registry is
a fixed list of subscribe/unsubscribe operations it performs when invoked,
which lets us model `notify_subscribers`' Python `for` loop (an index-based
iteration over the **live** list) faithfully. -/

/-- `CANBusSubscriber.subscribe`: append only if not already present. -/
def subscribe (subscribers : List Nat) (callback : Nat) : List Nat :=
  if callback ∈ subscribers then subscribers else subscribers ++ [callback]

/-- `CANBusSubscriber.unsubscribe`: remove the first occurrence if present. -/
def unsubscribe (subscribers : List Nat) (callback : Nat) : List Nat :=
  if callback ∈ subscribers then subscribers.erase callback else subscribers

/-- A registry operation a callback may perform while it runs. -/
inductive RegOp
  | sub (cb : Nat)
  | unsub (cb : Nat)
  deriving DecidableEq, Repr

def applyRegOp (subscribers : List Nat) : RegOp → List Nat
  | .sub cb => subscribe subscribers cb
  | .unsub cb => unsubscribe subscribers cb

/-- Invoking callback `cb`: it performs its registry operations in order. -/
def runCallback (effect : Nat → List RegOp) (subscribers : List Nat)
    (cb : Nat) : List Nat :=
  (effect cb).foldl applyRegOp subscribers

/-- Python's `for subscriber in self.subscribers` keeps a cursor index into
the live list: at step `i`, if `i < len(list)` the element at `i` is invoked
(possibly mutating the list) and the cursor advances. `fuel` bounds the
number of steps; `none` means fuel ran out. Returns the final list and the
trace of `(callback, frame)` invocations. -/
def notifyAux (effect : Nat → List RegOp) (frame : Nat) :
    Nat → Nat → List Nat → Option (List Nat × List (Nat × Nat))
  | 0, _, _ => none
  | fuel + 1, i, subs =>
    if h : i < subs.length then
      let cb := subs.get ⟨i, h⟩
      match notifyAux effect frame fuel (i + 1) (runCallback effect subs cb)
        with
      | none => none
      | some (final, trace) => some (final, (cb, frame) :: trace)
    else
      some (subs, [])

/-- `CANBusSubscriber.notify_subscribers(message)`. -/
def notify_subscribers (effect : Nat → List RegOp) (subscribers : List Nat)
    (frame : Nat) (fuel : Nat) : Option (List Nat × List (Nat × Nat)) :=
  notifyAux effect frame fuel 0 subscribers

/-! ### flick_volume -/

def ID3C2VCLEFT_SWITCHSTATUS_ID : Nat := 0x3c2

def VOLUME_FLICK_INTERVAL : ℚ := 10

def VOLUME_FLICK_JITTER : Nat := 2

/-- Externally visible actions of one `flick_volume` loop iteration: awaited
sleeps and `bus.send` calls. A send is recorded with the arbitration id and
the signal dict passed to `volume_message.encode` at that moment (encoding
itself is the external cantools collaborator). -/
inductive FlickEvent
  | sleep (seconds : ℚ)
  | send (arbitration_id : Nat) (signals : List (String × Int))
  deriving DecidableEq, Repr

/-- `jitter = (random.randint(0, 2000 * VOLUME_FLICK_JITTER) / 1000) -
VOLUME_FLICK_JITTER`, where `r` is the value the random draw produced. -/
def flickJitter (r : Nat) : ℚ := (r : ℚ) / 1000 - (VOLUME_FLICK_JITTER : ℚ)

/-- `interval = VOLUME_FLICK_INTERVAL + jitter`. -/
def flickInterval (r : Nat) : ℚ := VOLUME_FLICK_INTERVAL + flickJitter r

/-- One iteration of the `while True` loop of `flick_volume`, starting from
the current `signals` dict and a draw `r`: sleep the jittered interval, set
the scroll-ticks signal to `-1`, encode and send, sleep `0.01`, set it to
`1`, encode and send. Returns the event trace and the dict carried into the
next iteration. -/
def flick_volume_iteration (signals : List (String × Int)) (r : Nat) :
    List FlickEvent × List (String × Int) :=
  let interval := flickInterval r
  let signals1 := dictInsert signals "VCLEFT_swcLeftScrollTicks" (-1)
  let signals2 := dictInsert signals1 "VCLEFT_swcLeftScrollTicks" 1
  ([FlickEvent.sleep interval,
    FlickEvent.send ID3C2VCLEFT_SWITCHSTATUS_ID signals1,
    FlickEvent.sleep (1 / 100),
    FlickEvent.send ID3C2VCLEFT_SWITCHSTATUS_ID signals2],
   signals2)

/-! ### log_frames -/

/-- Outcome of `dbc.decode_message(id, data)`: a decoded dict, or one of the
exception kinds `log_frames` catches. -/
inductive DecodeOutcome
  | ok (decoded : List (String × Int))
  | decodeError
  | keyError
  | valueError
  deriving DecidableEq, Repr

structure CanMessage where
  arbitration_id : Nat
  data : List Nat
  timestamp : ℚ
  deriving DecidableEq, Repr

/-- The log records `log_frames` emits. -/
inductive LogEvent
  | infoDecoded (decoded : List (String × Int))
  | debugDecodeError
  | debugRaw (arbitration_id : Nat) (data : List Nat) (timestamp : ℚ)
  | debugUnknown (message : CanMessage)
  deriving DecidableEq, Repr

/-- An uncaught Python exception escaping to the caller. -/
structure PyExc where
  kind : String
  deriving DecidableEq, Repr

/-- Embedding of `log_frames(dbc, message)`: `try` decode and log at info;
`except DecodeError` logs the error and the raw bytes/timestamp at debug and
returns; `except (KeyError, ValueError)` logs the message as unknown at
debug. `Except.error` would be an exception propagating to the caller. -/
def log_frames (decode_message : Nat → List Nat → DecodeOutcome)
    (message : CanMessage) : Except PyExc (List LogEvent) :=
  match decode_message message.arbitration_id message.data with
  | .ok decoded => .ok [LogEvent.infoDecoded decoded]
  | .decodeError =>
    .ok [LogEvent.debugDecodeError,
      LogEvent.debugRaw message.arbitration_id message.data message.timestamp]
  | .keyError => .ok [LogEvent.debugUnknown message]
  | .valueError => .ok [LogEvent.debugUnknown message]

/-- Projects a trace event to its transmission, when it is one. -/
def sendOf : FlickEvent → Option (Nat × List (String × Int))
  | FlickEvent.send arbitration_id signals => some (arbitration_id, signals)
  | FlickEvent.sleep _ => none

/-- Effect table for C3's failing input: callback `0` unsubscribes itself
while `notify_subscribers` is iterating. -/
def selfUnsubscribingEffect : Nat → List RegOp :=
  fun cb => if cb = 0 then [RegOp.unsub 0] else []

/-- Decoder that always raises a structural decode error, for C9's witness. -/
def alwaysDecodeError : Nat → List Nat → DecodeOutcome :=
  fun _ _ => DecodeOutcome.decodeError

theorem keys_dictInsert (d : List (String × Int)) (k : String) (v : Int) :
    keys (dictInsert d k v) = if k ∈ keys d then keys d else keys d ++ [k] := by
  unfold dictInsert
  split
  · simp only [keys, List.map_map]
    congr 1
    funext p
    by_cases h : p.1 = k <;> simp [h]
  · simp [keys]

theorem dictLookup_nil (k : String) : dictLookup [] k = none := rfl

theorem dictLookup_cons (p : String × Int) (rest : List (String × Int))
    (k : String) :
    dictLookup (p :: rest) k =
      if p.1 = k then some p.2 else dictLookup rest k := by
  by_cases h : p.1 = k
  · simp [dictLookup, List.find?_cons_of_pos, h]
  · rw [dictLookup, List.find?_cons_of_neg _ (by simpa using h), if_neg h]
    rfl

theorem dictLookup_eq_none_iff (d : List (String × Int)) (k : String) :
    dictLookup d k = none ↔ k ∉ keys d := by
  induction d with
  | nil => simp [dictLookup_nil, keys]
  | cons p rest ih =>
    rw [dictLookup_cons]
    by_cases h : p.1 = k
    · simp [h, keys]
    · simp only [if_neg h, ih, keys, List.map_cons, List.mem_cons]
      constructor
      · intro hk hc
        rcases hc with hc | hc
        · exact h hc.symm
        · exact hk hc
      · intro hk hc
        exact hk (Or.inr hc)

theorem dictLookup_dictInsert_self (d : List (String × Int)) (k : String)
    (v : Int) : dictLookup (dictInsert d k v) k = some v := by
  unfold dictInsert
  split
  · rename_i hmem
    induction d with
    | nil => simp [keys] at hmem
    | cons p rest ih =>
      by_cases h : p.1 = k
      · simp [List.map_cons, h, dictLookup_cons]
      · simp only [List.map_cons, if_neg h]
        rw [dictLookup_cons, if_neg h]
        have hmem' : k ∈ keys rest := by
          simp only [keys, List.map_cons, List.mem_cons] at hmem
          rcases hmem with hc | hc
          · exact absurd hc.symm h
          · exact hc
        exact ih hmem'
  · rename_i hmem
    induction d with
    | nil => simp [dictLookup_cons]
    | cons p rest ih =>
      simp only [keys, List.map_cons, List.mem_cons] at hmem
      push_neg at hmem
      rw [List.cons_append, dictLookup_cons, if_neg (fun hc => hmem.1 hc.symm)]
      exact ih (by simp [keys, hmem.2])

theorem dictLookup_dictInsert_ne (d : List (String × Int)) (k k' : String)
    (v : Int) (h : k ≠ k') :
    dictLookup (dictInsert d k v) k' = dictLookup d k' := by
  unfold dictInsert
  split
  · rename_i hmem
    clear hmem
    induction d with
    | nil => simp
    | cons p rest ih =>
      by_cases hp : p.1 = k
      · simp only [List.map_cons, hp, if_pos rfl]
        rw [dictLookup_cons, dictLookup_cons, if_neg (by simpa using h),
          if_neg (by rw [hp]; exact h)]
        exact ih
      · simp only [List.map_cons, if_neg hp]
        rw [dictLookup_cons, dictLookup_cons]
        by_cases hq : p.1 = k'
        · simp [hq]
        · rw [if_neg hq, if_neg hq]
          exact ih
  · rename_i hmem
    clear hmem
    induction d with
    | nil =>
      rw [List.nil_append, dictLookup_cons, if_neg h]
    | cons p rest ih =>
      rw [List.cons_append, dictLookup_cons, dictLookup_cons]
      by_cases hq : p.1 = k'
      · simp [hq]
      · rw [if_neg hq, if_neg hq]
        exact ih

theorem foldlM_csdStep_eq (specified_signals : List (String × Int))
    (sigs : List Signal) :
    ∀ d0 mv0,
      (∀ s ∈ sigs, (dictLookup specified_signals s.name).isSome →
        s.multiplexer_ids ≠ some []) →
      sigs.foldlM (csdStep specified_signals) (d0, mv0) =
        some (dFinal specified_signals sigs d0,
          mvFinal specified_signals sigs mv0) := by
  induction sigs with
  | nil => intro d0 mv0 _; rfl
  | cons s rest ih =>
    intro d0 mv0 hok
    rw [List.foldlM_cons]
    have hrest : ∀ t ∈ rest, (dictLookup specified_signals t.name).isSome →
        t.multiplexer_ids ≠ some [] :=
      fun t ht => hok t (List.mem_cons_of_mem _ ht)
    cases hsp : dictLookup specified_signals s.name with
    | none =>
      have hstep : csdStep specified_signals (d0, mv0) s = some (d0, mv0) := by
        simp [csdStep, hsp]
      rw [hstep]
      show rest.foldlM (csdStep specified_signals) (d0, mv0) = _
      rw [ih d0 mv0 hrest]
      have hd : dFinal specified_signals (s :: rest) d0 =
          dFinal specified_signals rest d0 := by
        simp [dFinal, hsp]
      have hm : mvFinal specified_signals (s :: rest) mv0 =
          mvFinal specified_signals rest mv0 := by
        simp [mvFinal, hsp]
      rw [hd, hm]
    | some v =>
      cases hmx : s.multiplexer_ids with
      | none =>
        have hstep : csdStep specified_signals (d0, mv0) s =
            some (dictInsert d0 s.name v, mv0) := by
          simp [csdStep, hsp, hmx]
        rw [hstep]
        show rest.foldlM (csdStep specified_signals)
            (dictInsert d0 s.name v, mv0) = _
        rw [ih _ _ hrest]
        have hd : dFinal specified_signals (s :: rest) d0 =
            dFinal specified_signals rest (dictInsert d0 s.name v) := by
          simp [dFinal, hsp]
        have hm : mvFinal specified_signals (s :: rest) mv0 =
            mvFinal specified_signals rest mv0 := by
          simp [mvFinal, hsp, hmx]
        rw [hd, hm]
      | some ids =>
        cases ids with
        | nil =>
          exact absurd hmx
            (hok s (List.mem_cons_self _ _) (by simp [hsp]))
        | cons m tl =>
          have hstep : csdStep specified_signals (d0, mv0) s =
              some (dictInsert d0 s.name v, some m) := by
            simp [csdStep, hsp, hmx]
          rw [hstep]
          show rest.foldlM (csdStep specified_signals)
              (dictInsert d0 s.name v, some m) = _
          rw [ih _ _ hrest]
          have hd : dFinal specified_signals (s :: rest) d0 =
              dFinal specified_signals rest (dictInsert d0 s.name v) := by
            simp [dFinal, hsp]
          have hm : mvFinal specified_signals (s :: rest) mv0 =
              mvFinal specified_signals rest (some m) := by
            simp [mvFinal, hsp, hmx]
          rw [hd, hm]

theorem mem_muxCandidates_of (specified_signals : List (String × Int))
    (sigs : List Signal) (s : Signal) (l : List Int) (hs : s ∈ sigs)
    (hsp : (dictLookup specified_signals s.name).isSome)
    (hm : s.multiplexer_ids = some l) :
    l ∈ muxCandidates specified_signals sigs := by
  unfold muxCandidates
  rw [List.mem_filterMap]
  exact ⟨s, hs, by rw [if_pos hsp, hm]⟩

theorem mvFinal_eq_last_candidate (specified_signals : List (String × Int))
    (sigs : List Signal) :
    ∀ mv0, (∀ ids ∈ muxCandidates specified_signals sigs, ids ≠ []) →
      mvFinal specified_signals sigs mv0 =
        match (muxCandidates specified_signals sigs).getLast? with
        | some ids => ids.head?
        | none => mv0 := by
  induction sigs with
  | nil => intro mv0 _; rfl
  | cons s rest ih =>
    intro mv0 hne
    by_cases hsp : (dictLookup specified_signals s.name).isSome
    · cases hmx : s.multiplexer_ids with
      | none =>
        have hc : muxCandidates specified_signals (s :: rest) =
            muxCandidates specified_signals rest := by
          simp [muxCandidates, hsp, hmx]
        have hm : mvFinal specified_signals (s :: rest) mv0 =
            mvFinal specified_signals rest mv0 := by
          simp [mvFinal, hsp, hmx]
        rw [hc] at hne ⊢
        rw [hm]
        exact ih mv0 hne
      | some ids =>
        have hc : muxCandidates specified_signals (s :: rest) =
            ids :: muxCandidates specified_signals rest := by
          simp [muxCandidates, hsp, hmx]
        cases ids with
        | nil =>
          exact absurd rfl (hne [] (by rw [hc]; exact List.mem_cons_self _ _))
        | cons m tl =>
          have hm : mvFinal specified_signals (s :: rest) mv0 =
              mvFinal specified_signals rest (some m) := by
            simp [mvFinal, hsp, hmx]
          have hne' : ∀ l ∈ muxCandidates specified_signals rest, l ≠ [] := by
            intro l hl
            exact hne l (by rw [hc]; exact List.mem_cons_of_mem _ hl)
          rw [hc, hm, ih (some m) hne']
          cases hrest : muxCandidates specified_signals rest with
          | nil => simp
          | cons c cs =>
            have hg : ∃ x, (c :: cs).getLast? = some x :=
              ⟨(c :: cs).getLast (by simp), List.getLast?_eq_getLast _ _⟩
            obtain ⟨x, hx⟩ := hg
            rw [List.getLast?_cons_cons, hx]
    · have hc : muxCandidates specified_signals (s :: rest) =
          muxCandidates specified_signals rest := by
        simp [muxCandidates, hsp]
      have hm : mvFinal specified_signals (s :: rest) mv0 =
          mvFinal specified_signals rest mv0 := by
        simp [mvFinal, hsp]
      rw [hc] at hne ⊢
      rw [hm]
      exact ih mv0 hne

theorem keys_dFinal (specified_signals : List (String × Int))
    (sigs : List Signal) :
    ∀ d0, (∀ s ∈ sigs, s.name ∈ keys d0) →
      keys (dFinal specified_signals sigs d0) = keys d0 := by
  induction sigs with
  | nil => intro d0 _; rfl
  | cons s rest ih =>
    intro d0 hmem
    cases hsp : dictLookup specified_signals s.name with
    | none =>
      have hd : dFinal specified_signals (s :: rest) d0 =
          dFinal specified_signals rest d0 := by
        simp [dFinal, hsp]
      rw [hd]
      exact ih d0 (fun t ht => hmem t (List.mem_cons_of_mem _ ht))
    | some v =>
      have hd : dFinal specified_signals (s :: rest) d0 =
          dFinal specified_signals rest (dictInsert d0 s.name v) := by
        simp [dFinal, hsp]
      have hk : keys (dictInsert d0 s.name v) = keys d0 := by
        rw [keys_dictInsert, if_pos (hmem s (List.mem_cons_self _ _))]
      rw [hd, ih _ (fun t ht => by
        rw [hk]; exact hmem t (List.mem_cons_of_mem _ ht)), hk]

theorem dictLookup_dFinal (specified_signals : List (String × Int))
    (sigs : List Signal) :
    ∀ d0 k, dictLookup (dFinal specified_signals sigs d0) k =
      if k ∈ sigs.map Signal.name ∧
          (dictLookup specified_signals k).isSome then
        dictLookup specified_signals k
      else dictLookup d0 k := by
  induction sigs with
  | nil =>
    intro d0 k
    simp [dFinal]
  | cons s rest ih =>
    intro d0 k
    by_cases hk : k ∈ rest.map Signal.name ∧
        (dictLookup specified_signals k).isSome
    · cases hsp : dictLookup specified_signals s.name with
      | none =>
        have hd : dFinal specified_signals (s :: rest) d0 =
            dFinal specified_signals rest d0 := by
          simp [dFinal, hsp]
        rw [hd, ih d0 k, if_pos hk,
          if_pos ⟨List.mem_cons_of_mem _ hk.1, hk.2⟩]
      | some v =>
        have hd : dFinal specified_signals (s :: rest) d0 =
            dFinal specified_signals rest (dictInsert d0 s.name v) := by
          simp [dFinal, hsp]
        rw [hd, ih _ k, if_pos hk,
          if_pos ⟨List.mem_cons_of_mem _ hk.1, hk.2⟩]
    · by_cases hs : s.name = k ∧ (dictLookup specified_signals k).isSome
      · obtain ⟨v, hv⟩ := Option.isSome_iff_exists.mp hs.2
        have hsp : dictLookup specified_signals s.name = some v := by
          rw [hs.1]; exact hv
        have hd : dFinal specified_signals (s :: rest) d0 =
            dFinal specified_signals rest (dictInsert d0 s.name v) := by
          simp [dFinal, hsp]
        rw [hd, ih _ k, if_neg hk,
          if_pos ⟨by simp [hs.1.symm], hs.2⟩, hs.1,
          dictLookup_dictInsert_self, hv]
      · have hcond : ¬(k ∈ (s :: rest).map Signal.name ∧
            (dictLookup specified_signals k).isSome) := by
          intro hc
          obtain ⟨hmem1, hisome⟩ := hc
          rw [List.map_cons, List.mem_cons] at hmem1
          rcases hmem1 with h1 | h1
          · exact hs ⟨h1.symm, hisome⟩
          · exact hk ⟨h1, hisome⟩
        rw [if_neg hcond]
        cases hsp : dictLookup specified_signals s.name with
        | none =>
          have hd : dFinal specified_signals (s :: rest) d0 =
              dFinal specified_signals rest d0 := by
            simp [dFinal, hsp]
          rw [hd, ih d0 k, if_neg hk]
        | some v =>
          have hd : dFinal specified_signals (s :: rest) d0 =
              dFinal specified_signals rest (dictInsert d0 s.name v) := by
            simp [dFinal, hsp]
          have hne : s.name ≠ k := by
            intro he
            by_cases hki : (dictLookup specified_signals k).isSome
            · exact hs ⟨he, hki⟩
            · rw [← he] at hki
              exact hki (by simp [hsp])
          rw [hd, ih _ k, if_neg hk, dictLookup_dictInsert_ne _ _ _ _ hne]

theorem dictLookup_initDict_aux (default_value : Int) (sigs : List Signal) :
    ∀ acc k, dictLookup
        (sigs.foldl (fun d s => dictInsert d s.name default_value) acc) k =
      if k ∈ sigs.map Signal.name then some default_value
      else dictLookup acc k := by
  induction sigs with
  | nil => intro acc k; simp
  | cons s rest ih =>
    intro acc k
    rw [List.foldl_cons, ih]
    by_cases hr : k ∈ rest.map Signal.name
    · rw [if_pos hr, if_pos (by simp [hr])]
    · rw [if_neg hr]
      by_cases hsk : s.name = k
      · rw [if_pos (by simp [hsk.symm]), hsk, dictLookup_dictInsert_self]
      · rw [if_neg (by
            rw [List.map_cons, List.mem_cons]
            intro hc
            rcases hc with hc | hc
            · exact hsk hc.symm
            · exact hr hc),
          dictLookup_dictInsert_ne _ _ _ _ hsk]

theorem dictLookup_initDict (sigs : List Signal) (default_value : Int)
    (k : String) :
    dictLookup (initDict sigs default_value) k =
      if k ∈ sigs.map Signal.name then some default_value else none := by
  rw [initDict, dictLookup_initDict_aux]
  rfl

theorem keys_initDict_aux (default_value : Int) (sigs : List Signal) :
    ∀ acc, (∀ s ∈ sigs, s.name ∉ keys acc) →
      (sigs.map Signal.name).Nodup →
      keys (sigs.foldl (fun d s => dictInsert d s.name default_value) acc) =
        keys acc ++ sigs.map Signal.name := by
  induction sigs with
  | nil => intro acc _ _; simp
  | cons s rest ih =>
    intro acc hfresh hnd
    rw [List.foldl_cons]
    rw [List.map_cons] at hnd
    have hk : keys (dictInsert acc s.name default_value) =
        keys acc ++ [s.name] := by
      rw [keys_dictInsert, if_neg (hfresh s (List.mem_cons_self _ _))]
    rw [ih _ (fun t ht => by
        rw [hk, List.mem_append]
        intro hc
        rcases hc with hc | hc
        · exact hfresh t (List.mem_cons_of_mem _ ht) hc
        · rw [List.mem_singleton] at hc
          exact (List.nodup_cons.mp hnd).1 (hc ▸ List.mem_map_of_mem _ ht))
      (List.nodup_cons.mp hnd).2, hk, List.map_cons, List.append_assoc,
      List.singleton_append]

theorem keys_initDict (sigs : List Signal) (default_value : Int)
    (hnd : (sigs.map Signal.name).Nodup) :
    keys (initDict sigs default_value) = sigs.map Signal.name := by
  rw [initDict, keys_initDict_aux _ _ _ (by intro s _; simp [keys]) hnd]
  rfl

/-- Closed form of `create_signal_dict` when no `IndexError` occurs: the loop
yields `dFinal`/`mvFinal` and then the multiplexer signal, when present and a
candidate was recorded, is overwritten. -/
theorem create_signal_dict_eq (message : Message)
    (specified_signals : List (String × Int)) (default_value : Int)
    (hok : ∀ s ∈ message.signals,
      (dictLookup specified_signals s.name).isSome →
        s.multiplexer_ids ≠ some []) :
    create_signal_dict message specified_signals default_value =
      some (
        match message.signals.find? (fun s => s.is_multiplexer),
            mvFinal specified_signals message.signals none with
        | some ms, some mv =>
          dictInsert
            (dFinal specified_signals message.signals
              (initDict message.signals default_value)) ms.name mv
        | _, _ =>
          dFinal specified_signals message.signals
            (initDict message.signals default_value)) := by
  unfold create_signal_dict
  dsimp only
  rw [foldlM_csdStep_eq _ _ _ _ hok]
  cases List.find? (fun s => s.is_multiplexer) message.signals <;>
    cases mvFinal specified_signals message.signals none <;> rfl

/-! ### Claim theorems -/

/-- Claim C1: for a message with a designated multiplexer signal, if exactly
one name in `specified` matches a declared signal carrying a non-None
`multiplexer_ids` sequence, `create_signal_dict` assigns the multiplexer
signal the first element of that sequence, regardless of any explicit entry
for the multiplexer signal itself in `specified`. -/
theorem create_signal_dict_unique_candidate (message : Message)
    (specified_signals : List (String × Int)) (default_value : Int)
    (ms : Signal) (ids : List Int) (m : Int)
    (hms : message.signals.find? (fun s => s.is_multiplexer) = some ms)
    (hcand : muxCandidates specified_signals message.signals = [ids])
    (hhead : ids.head? = some m) :
    (create_signal_dict message specified_signals default_value).bind
      (fun result => dictLookup result ms.name) = some m := by
  have hne : ∀ l ∈ muxCandidates specified_signals message.signals,
      l ≠ [] := by
    intro l hl
    rw [hcand, List.mem_singleton] at hl
    subst hl
    intro hl0
    rw [hl0] at hhead
    simp at hhead
  have hok : ∀ s ∈ message.signals,
      (dictLookup specified_signals s.name).isSome →
        s.multiplexer_ids ≠ some [] := by
    intro s hs hsp hmx
    exact hne [] (mem_muxCandidates_of _ _ s [] hs hsp hmx) rfl
  have hmv : mvFinal specified_signals message.signals none = some m := by
    rw [mvFinal_eq_last_candidate _ _ none hne, hcand]
    simpa using hhead
  rw [create_signal_dict_eq _ _ _ hok, hms, hmv]
  simp [dictLookup_dictInsert_self]

/-- Witness for C1: the spec scenario, message `0x3c2` with
`sel` the multiplexer and `val` declaring selector ids `[0]`; building with
`val = -1` puts the first declared id into `sel` and `-1` into `val`. -/
theorem create_signal_dict_unique_candidate_witness :
    (create_signal_dict
        (Message.mk [Signal.mk "sel" true none,
          Signal.mk "val" false (some [0])]) [("val", -1)] 0).bind
      (fun result => dictLookup result "sel") = some 0 ∧
    create_signal_dict
        (Message.mk [Signal.mk "sel" true none,
          Signal.mk "val" false (some [0])]) [("val", -1)] 0 =
      some [("sel", 0), ("val", -1)] :=
  ⟨create_signal_dict_unique_candidate
      (Message.mk [Signal.mk "sel" true none,
        Signal.mk "val" false (some [0])]) [("val", -1)] 0
      (Signal.mk "sel" true none) [0] 0 (by decide) (by decide) (by decide),
    by decide⟩

/-- Claim C2: with several specified signals carrying `multiplexer_ids`, the
candidate selector is the first element of the ids of the last such signal
in declaration order, and in step 3 it overwrites any value `specified`
explicitly gave for the multiplexer signal itself. -/
theorem create_signal_dict_last_candidate_wins (message : Message)
    (specified_signals : List (String × Int)) (default_value : Int)
    (ms : Signal) (pre : List (List Int)) (ids : List Int) (m : Int)
    (hms : message.signals.find? (fun s => s.is_multiplexer) = some ms)
    (hcand : muxCandidates specified_signals message.signals = pre ++ [ids])
    (hpre : pre ≠ [])
    (hne : ∀ l ∈ muxCandidates specified_signals message.signals, l ≠ [])
    (hhead : ids.head? = some m)
    (hover : (dictLookup specified_signals ms.name).isSome) :
    (create_signal_dict message specified_signals default_value).bind
      (fun result => dictLookup result ms.name) = some m := by
  have hok : ∀ s ∈ message.signals,
      (dictLookup specified_signals s.name).isSome →
        s.multiplexer_ids ≠ some [] := by
    intro s hs hsp hmx
    exact hne [] (mem_muxCandidates_of _ _ s [] hs hsp hmx) rfl
  have hmv : mvFinal specified_signals message.signals none = some m := by
    rw [mvFinal_eq_last_candidate _ _ none hne, hcand, List.getLast?_concat]
    exact hhead
  rw [create_signal_dict_eq _ _ _ hok, hms, hmv]
  simp [dictLookup_dictInsert_self]

/-- Witness for C2: `sel` explicitly specified as `5`, signals `a` (ids
`[7]`) and `b` (ids `[9, 3]`) both specified; the result binds `sel` to `9`,
the first id of the last candidate, overriding the explicit `5`. -/
theorem create_signal_dict_last_candidate_wins_witness :
    (create_signal_dict
        (Message.mk [Signal.mk "sel" true none,
          Signal.mk "a" false (some [7]), Signal.mk "b" false (some [9, 3])])
        [("sel", 5), ("a", 1), ("b", 2)] 0).bind
      (fun result => dictLookup result "sel") = some 9 ∧
    create_signal_dict
        (Message.mk [Signal.mk "sel" true none,
          Signal.mk "a" false (some [7]), Signal.mk "b" false (some [9, 3])])
        [("sel", 5), ("a", 1), ("b", 2)] 0 =
      some [("sel", 9), ("a", 1), ("b", 2)] :=
  ⟨create_signal_dict_last_candidate_wins
      (Message.mk [Signal.mk "sel" true none,
        Signal.mk "a" false (some [7]), Signal.mk "b" false (some [9, 3])])
      [("sel", 5), ("a", 1), ("b", 2)] 0
      (Signal.mk "sel" true none) [[7]] [9, 3] 9
      (by decide) (by decide) (by decide) (by decide) (by decide) (by decide),
    by decide⟩

/-- Claim C6: for a message with no multiplexer signal the returned map has
exactly one entry per declared signal (its keys are the declared names),
agrees with the all-defaults map at every name not present in `specified`,
and names in `specified` not declared by the message never appear. -/
theorem create_signal_dict_no_multiplexer (message : Message)
    (specified_signals : List (String × Int)) (default_value : Int)
    (hnomux : message.signals.find? (fun s => s.is_multiplexer) = none)
    (hok : ∀ s ∈ message.signals,
      (dictLookup specified_signals s.name).isSome →
        s.multiplexer_ids ≠ some [])
    (hnd : (message.signals.map Signal.name).Nodup) :
    (create_signal_dict message specified_signals default_value).map keys =
        some (message.signals.map Signal.name) ∧
    (∀ k, dictLookup specified_signals k = none →
      (create_signal_dict message specified_signals default_value).map
          (fun result => dictLookup result k) =
        some (dictLookup (initDict message.signals default_value) k)) ∧
    (∀ k, k ∉ message.signals.map Signal.name →
      (create_signal_dict message specified_signals default_value).map
          (fun result => dictLookup result k) = some none) := by
  have heq := create_signal_dict_eq message specified_signals default_value hok
  rw [hnomux] at heq
  have heq' : create_signal_dict message specified_signals default_value =
      some (dFinal specified_signals message.signals
        (initDict message.signals default_value)) := by
    rw [heq]
  rw [heq']
  refine ⟨?_, ?_, ?_⟩
  · have h1 : keys (dFinal specified_signals message.signals
        (initDict message.signals default_value)) =
        keys (initDict message.signals default_value) :=
      keys_dFinal _ _ _ (fun s hs => by
        rw [keys_initDict _ _ hnd]
        exact List.mem_map_of_mem _ hs)
    rw [Option.map_some', h1, keys_initDict _ _ hnd]
  · intro k hk
    have hno : ¬(k ∈ message.signals.map Signal.name ∧
        (dictLookup specified_signals k).isSome) := by
      intro hc
      rw [hk] at hc
      simp at hc
    rw [Option.map_some', dictLookup_dFinal, if_neg hno]
  · intro k hk
    rw [Option.map_some', dictLookup_dFinal, if_neg (fun hc => hk hc.1),
      dictLookup_initDict, if_neg hk]

/-- Witness for C6: message with two plain signals `x`, `y`; building with
`y = 4` and an undeclared name `z = 9` keeps the declared keys, leaves `x`
at the default, and never materialises `z`. -/
theorem create_signal_dict_no_multiplexer_witness :
    (create_signal_dict
        (Message.mk [Signal.mk "x" false none, Signal.mk "y" false none])
        [("y", 4), ("z", 9)] 0).map keys = some ["x", "y"] ∧
    (create_signal_dict
        (Message.mk [Signal.mk "x" false none, Signal.mk "y" false none])
        [("y", 4), ("z", 9)] 0).map (fun result => dictLookup result "x") =
      some (dictLookup
        (initDict [Signal.mk "x" false none, Signal.mk "y" false none] 0)
        "x") ∧
    (create_signal_dict
        (Message.mk [Signal.mk "x" false none, Signal.mk "y" false none])
        [("y", 4), ("z", 9)] 0).map (fun result => dictLookup result "z") =
      some none :=
  ⟨(create_signal_dict_no_multiplexer
      (Message.mk [Signal.mk "x" false none, Signal.mk "y" false none])
      [("y", 4), ("z", 9)] 0 (by decide) (by decide) (by decide)).1,
    (create_signal_dict_no_multiplexer
      (Message.mk [Signal.mk "x" false none, Signal.mk "y" false none])
      [("y", 4), ("z", 9)] 0 (by decide) (by decide) (by decide)).2.1 "x"
      (by decide),
    (create_signal_dict_no_multiplexer
      (Message.mk [Signal.mk "x" false none, Signal.mk "y" false none])
      [("y", 4), ("z", 9)] 0 (by decide) (by decide) (by decide)).2.2 "z"
      (by decide)⟩

/-- Claim C10: `create_signal_dict` is total when every specified-and-
declared signal with non-None `multiplexer_ids` has a non-empty sequence,
and there is an input with an empty `multiplexer_ids` sequence on which the
unguarded index access fails instead of returning a map. -/
theorem create_signal_dict_totality_boundary :
    (∀ (message : Message) (specified_signals : List (String × Int))
        (default_value : Int),
      (∀ s ∈ message.signals,
        (dictLookup specified_signals s.name).isSome →
          s.multiplexer_ids ≠ some []) →
      (create_signal_dict message specified_signals default_value).isSome) ∧
    create_signal_dict
        (Message.mk [Signal.mk "sel" true none,
          Signal.mk "val" false (some [])]) [("val", 1)] 0 = none := by
  constructor
  · intro message specified_signals default_value hok
    rw [create_signal_dict_eq _ _ _ hok]
    rfl
  · decide

/-- Witness for C10: on a message whose specified signal has non-empty
`multiplexer_ids`, the call returns a map. -/
theorem create_signal_dict_totality_boundary_witness :
    (create_signal_dict
        (Message.mk [Signal.mk "sel" true none,
          Signal.mk "val" false (some [0])]) [("val", 1)] 0).isSome :=
  create_signal_dict_totality_boundary.1
    (Message.mk [Signal.mk "sel" true none,
      Signal.mk "val" false (some [0])]) [("val", 1)] 0 (by decide)

theorem applyRegOp_nodup (l : List Nat) (op : RegOp) (h : l.Nodup) :
    (applyRegOp l op).Nodup := by
  cases op with
  | sub cb =>
    show (subscribe l cb).Nodup
    unfold subscribe
    split
    · exact h
    · rename_i hmem
      simp [List.nodup_append, h, hmem]
  | unsub cb =>
    show (unsubscribe l cb).Nodup
    unfold unsubscribe
    split
    · exact h.erase cb
    · exact h

theorem foldl_applyRegOp_nodup (ops : List RegOp) :
    ∀ l : List Nat, l.Nodup → (ops.foldl applyRegOp l).Nodup := by
  induction ops with
  | nil => intro l h; exact h
  | cons op rest ih => intro l h; exact ih _ (applyRegOp_nodup l op h)

/-- Claim C7: `subscribe` and `unsubscribe` are idempotent — subscribing the
same callback twice leaves exactly one occurrence, unsubscribing an absent
callback is a no-op, and no sequence of operations from the empty registry
ever produces a duplicate. -/
theorem subscriber_registry_idempotent :
    (∀ (l : List Nat) (cb : Nat),
      subscribe (subscribe l cb) cb = subscribe l cb) ∧
    (∀ (l : List Nat) (cb : Nat), cb ∉ l → unsubscribe l cb = l) ∧
    (∀ (l : List Nat) (cb : Nat), l.Nodup →
      (subscribe (subscribe l cb) cb).count cb = 1) ∧
    (∀ ops : List RegOp, (ops.foldl applyRegOp []).Nodup) := by
  refine ⟨?_, ?_, ?_, ?_⟩
  · intro l cb
    by_cases h : cb ∈ l
    · simp [subscribe, h]
    · simp [subscribe, h]
  · intro l cb h
    simp [unsubscribe, h]
  · intro l cb hnd
    by_cases h : cb ∈ l
    · rw [show subscribe l cb = l from by simp [subscribe, h],
        show subscribe l cb = l from by simp [subscribe, h]]
      exact List.count_eq_one_of_mem hnd h
    · rw [show subscribe l cb = l ++ [cb] from by simp [subscribe, h],
        show subscribe (l ++ [cb]) cb = l ++ [cb] from by simp [subscribe]]
      rw [List.count_append]
      simp [List.count_eq_zero_of_not_mem h]
  · intro ops
    exact foldl_applyRegOp_nodup ops [] List.nodup_nil

/-- Witness for C7 at concrete registries. -/
theorem subscriber_registry_idempotent_witness :
    subscribe (subscribe [5] 7) 7 = subscribe [5] 7 ∧
    unsubscribe [5] 7 = [5] ∧
    (subscribe (subscribe [5] 7) 7).count 7 = 1 ∧
    ([RegOp.sub 1, RegOp.sub 1, RegOp.unsub 2].foldl applyRegOp []).Nodup :=
  ⟨subscriber_registry_idempotent.1 [5] 7,
    subscriber_registry_idempotent.2.1 [5] 7 (by decide),
    subscriber_registry_idempotent.2.2.1 [5] 7 (by decide),
    subscriber_registry_idempotent.2.2.2 [RegOp.sub 1, RegOp.sub 1,
      RegOp.unsub 2]⟩

theorem notifyAux_no_mutation (effect : Nat → List RegOp) (frame : Nat) :
    ∀ (fuel i : Nat) (subs : List Nat), (∀ cb ∈ subs, effect cb = []) →
      subs.length - i < fuel →
      notifyAux effect frame fuel i subs =
        some (subs, (subs.drop i).map (fun cb => (cb, frame))) := by
  intro fuel
  induction fuel with
  | zero => intro i subs _ h; omega
  | succ f ih =>
    intro i subs hpure hf
    rw [notifyAux]
    by_cases h : i < subs.length
    · rw [dif_pos h]
      dsimp only
      have hcb : runCallback effect subs (subs.get ⟨i, h⟩) = subs := by
        unfold runCallback
        rw [hpure _ (subs.get_mem i h)]
        rfl
      rw [hcb, ih (i + 1) subs hpure (by omega)]
      rw [List.drop_eq_getElem_cons h, List.map_cons]
      rfl
    · rw [dif_neg h]
      rw [List.drop_eq_nil_of_le (by omega), List.map_nil]

/-- Claim C8: when no registered callback mutates the registry,
`notify_subscribers` invokes every currently registered callback exactly
once, sequentially, in registration order, passing each the same frame. -/
theorem notify_subscribers_in_order (effect : Nat → List RegOp)
    (subscribers : List Nat) (frame : Nat) (fuel : Nat)
    (hpure : ∀ cb ∈ subscribers, effect cb = [])
    (hfuel : subscribers.length < fuel) :
    notify_subscribers effect subscribers frame fuel =
      some (subscribers, subscribers.map (fun cb => (cb, frame))) := by
  unfold notify_subscribers
  rw [notifyAux_no_mutation effect frame fuel 0 subscribers hpure (by omega)]
  rw [List.drop_zero]

/-- Witness for C8: two effect-free callbacks dispatched in order. -/
theorem notify_subscribers_in_order_witness :
    notify_subscribers (fun _ => []) [3, 4] 9 3 =
      some ([3, 4], [(3, 9), (4, 9)]) :=
  notify_subscribers_in_order (fun _ => []) [3, 4] 9 3
    (fun _ _ => rfl) (by decide)

/-- Claim C3 evaluated at its failing input: with registered callbacks
`[0, 1]`, callback `0` unsubscribes itself during dispatch and the live-list
iteration then skips callback `1` entirely — the trace contains only
`(0, frame)`, so a callback registered when dispatch started is never
invoked for that frame. -/
theorem notify_live_iteration_skips_next :
    notify_subscribers selfUnsubscribingEffect [0, 1] 7 5 =
      some ([1], [(0, 7)]) ∧
    (notify_subscribers selfUnsubscribingEffect [0, 1] 7 5).map
      (fun res => decide ((1, 7) ∈ res.2)) = some false := by
  constructor
  · decide
  · decide

/-- Claim C4: every `flick_volume` iteration performs exactly two
transmissions, both with id `0x3c2`: first the map with the scroll-ticks
signal set to `-1`, then, after the fixed `0.01`-second sleep, the same map
with only that signal changed to `1`; the release send is the final event
of the iteration, before the next jittered sleep. -/
theorem flick_volume_two_phase (signals : List (String × Int)) (r : Nat) :
    (flick_volume_iteration signals r).1 =
      [FlickEvent.sleep (flickInterval r),
        FlickEvent.send ID3C2VCLEFT_SWITCHSTATUS_ID
          (dictInsert signals "VCLEFT_swcLeftScrollTicks" (-1)),
        FlickEvent.sleep (1 / 100),
        FlickEvent.send ID3C2VCLEFT_SWITCHSTATUS_ID
          (dictInsert (dictInsert signals "VCLEFT_swcLeftScrollTicks" (-1))
            "VCLEFT_swcLeftScrollTicks" 1)] ∧
    ((flick_volume_iteration signals r).1.filterMap sendOf).length = 2 ∧
    (∀ p ∈ (flick_volume_iteration signals r).1.filterMap sendOf,
      p.1 = ID3C2VCLEFT_SWITCHSTATUS_ID) ∧
    dictLookup (dictInsert signals "VCLEFT_swcLeftScrollTicks" (-1))
      "VCLEFT_swcLeftScrollTicks" = some (-1) ∧
    dictLookup
      (dictInsert (dictInsert signals "VCLEFT_swcLeftScrollTicks" (-1))
        "VCLEFT_swcLeftScrollTicks" 1) "VCLEFT_swcLeftScrollTicks" =
      some 1 ∧
    (∀ k, k ≠ "VCLEFT_swcLeftScrollTicks" →
      dictLookup
          (dictInsert (dictInsert signals "VCLEFT_swcLeftScrollTicks" (-1))
            "VCLEFT_swcLeftScrollTicks" 1) k =
        dictLookup (dictInsert signals "VCLEFT_swcLeftScrollTicks" (-1)) k) := by
  refine ⟨rfl, rfl, ?_, ?_, ?_, ?_⟩
  · intro p hp
    have : (flick_volume_iteration signals r).1.filterMap sendOf =
        [(ID3C2VCLEFT_SWITCHSTATUS_ID,
          dictInsert signals "VCLEFT_swcLeftScrollTicks" (-1)),
         (ID3C2VCLEFT_SWITCHSTATUS_ID,
          dictInsert (dictInsert signals "VCLEFT_swcLeftScrollTicks" (-1))
            "VCLEFT_swcLeftScrollTicks" 1)] := rfl
    rw [this, List.mem_cons, List.mem_singleton] at hp
    rcases hp with hp | hp <;> rw [hp]
  · exact dictLookup_dictInsert_self _ _ _
  · exact dictLookup_dictInsert_self _ _ _
  · intro k hk
    exact dictLookup_dictInsert_ne _ _ _ _ (fun hc => hk hc.symm)

/-- Witness for C4 at the empty starting dict and draw `0`. -/
theorem flick_volume_two_phase_witness :
    ((flick_volume_iteration [] 0).1.filterMap sendOf).length = 2 ∧
    dictLookup
        (dictInsert (dictInsert [] "VCLEFT_swcLeftScrollTicks" (-1))
          "VCLEFT_swcLeftScrollTicks" 1) "other" =
      dictLookup (dictInsert [] "VCLEFT_swcLeftScrollTicks" (-1)) "other" :=
  ⟨(flick_volume_two_phase [] 0).2.1,
    (flick_volume_two_phase [] 0).2.2.2.2.2 "other" (by decide)⟩

/-- Claim C5: for every draw `r` with `0 ≤ r ≤ 2000 * J`, the sleep interval
equals `base + r / 1000 - J`, lies within `[base - J, base + J]`, and is a
whole number of milliseconds. -/
theorem flick_interval_jitter_bounds (r : Nat)
    (hr : r ≤ 2000 * VOLUME_FLICK_JITTER) :
    flickInterval r =
      VOLUME_FLICK_INTERVAL + (r : ℚ) / 1000 - (VOLUME_FLICK_JITTER : ℚ) ∧
    VOLUME_FLICK_INTERVAL - (VOLUME_FLICK_JITTER : ℚ) ≤ flickInterval r ∧
    flickInterval r ≤ VOLUME_FLICK_INTERVAL + (VOLUME_FLICK_JITTER : ℚ) ∧
    flickInterval r * 1000 = ((8000 + r : Nat) : ℚ) := by
  have hr' : r ≤ 4000 := by
    unfold VOLUME_FLICK_JITTER at hr
    omega
  have hrq : (r : ℚ) ≤ 4000 := by exact_mod_cast hr'
  have hrq0 : (0 : ℚ) ≤ (r : ℚ) := by positivity
  unfold flickInterval flickJitter VOLUME_FLICK_INTERVAL VOLUME_FLICK_JITTER
  push_cast
  refine ⟨by ring, by linarith, by linarith, by ring⟩

/-- Witness for C5 at the largest draw `r = 4000`. -/
theorem flick_interval_jitter_bounds_witness :
    flickInterval 4000 =
      VOLUME_FLICK_INTERVAL + (4000 : ℚ) / 1000 - (VOLUME_FLICK_JITTER : ℚ) ∧
    flickInterval 4000 ≤ VOLUME_FLICK_INTERVAL + (VOLUME_FLICK_JITTER : ℚ) :=
  ⟨(flick_interval_jitter_bounds 4000 (by decide)).1,
    (flick_interval_jitter_bounds 4000 (by decide)).2.2.1⟩

/-- Claim C9: `log_frames` never propagates a decode failure: it returns
normally on every input, logging the raw bytes and timestamp when decode
raises a structural decode error and logging the message as unknown when
the id is absent from the database (`KeyError`/`ValueError`). -/
theorem log_frames_never_propagates
    (decode_message : Nat → List Nat → DecodeOutcome) (message : CanMessage) :
    (log_frames decode_message message).toOption.isSome = true ∧
    (decode_message message.arbitration_id message.data =
        DecodeOutcome.decodeError →
      log_frames decode_message message =
        Except.ok [LogEvent.debugDecodeError,
          LogEvent.debugRaw message.arbitration_id message.data
            message.timestamp]) ∧
    (decode_message message.arbitration_id message.data =
        DecodeOutcome.keyError →
      log_frames decode_message message =
        Except.ok [LogEvent.debugUnknown message]) ∧
    (decode_message message.arbitration_id message.data =
        DecodeOutcome.valueError →
      log_frames decode_message message =
        Except.ok [LogEvent.debugUnknown message]) := by
  unfold log_frames
  cases h : decode_message message.arbitration_id message.data <;>
    simp [Except.toOption]

/-- Witness for C9: a frame whose decode raises a structural error is logged
with its raw bytes and timestamp and the call returns normally. -/
theorem log_frames_never_propagates_witness :
    log_frames alwaysDecodeError (CanMessage.mk 1 [2, 3] 4) =
      Except.ok [LogEvent.debugDecodeError, LogEvent.debugRaw 1 [2, 3] 4] :=
  (log_frames_never_propagates alwaysDecodeError
    (CanMessage.mk 1 [2, 3] 4)).2.1 rfl

end TPC
